import Mathlib

/-!
Shallow embedding of `snyk_migrate_to_github_app/main.py` (the
`SnykMigrationFacade` class and the orchestration in `main`), together with
theorems checking the natural-language specification against it.

Python strings are modelled as Lean `String`; the Python string primitives
used by the source (`str.startswith`, `str.replace`, `str.split`, `in`) are
modelled over the underlying character list so that every definition reduces
inside the kernel.  Python dicts keyed by strings are modelled as insertion
ordered association lists (`List (String × α)`) with last-write-wins update,
which is exactly the visible behaviour of a Python `dict` that is only ever
updated through item assignment.
-/

/-- Python `s.replace(pat, repl)` worker over character lists: replaces every
non-overlapping occurrence of `pat`, scanning left to right.  The `fuel`
argument makes the recursion structural; callers pass the length of the
scanned list, which is always sufficient because a nonempty pattern consumes
at least one character per step. -/
def replaceAllAux (pat repl : List Char) : Nat → List Char → List Char
  | 0, s => s
  | _ + 1, [] => []
  | fuel + 1, c :: cs =>
    if pat.isPrefixOf (c :: cs) then repl ++ replaceAllAux pat repl fuel (cs.drop (pat.length - 1))
    else c :: replaceAllAux pat repl fuel cs

/-- Python `s.replace(pat, repl)` (replace every occurrence; the source never
calls it with an empty pattern, for which we return `s` unchanged). -/
def pyReplace (s pat repl : String) : String :=
  match pat.data with
  | [] => s
  | _ :: _ => ⟨replaceAllAux pat.data repl.data s.data.length s.data⟩

/-- Python `s.startswith(pre)`. -/
def pyStartsWith (s pre : String) : Bool :=
  pre.data.isPrefixOf s.data

/-- Worker for Python `s.split(sep)` with a single-character separator. -/
def splitCharAux (sep : Char) : List Char → List Char → List (List Char)
  | [], acc => [acc.reverse]
  | c :: cs, acc =>
    if c == sep then acc.reverse :: splitCharAux sep cs []
    else splitCharAux sep cs (c :: acc)

/-- Python `s.split(sep)` for a single-character separator. -/
def pySplit (s : String) (sep : Char) : List String :=
  (splitCharAux sep s.data []).map String.mk

/-- Python `c in s` for a single character `c`. -/
def pyContainsChar (s : String) (c : Char) : Bool :=
  s.data.contains c

/-- A Snyk target as consumed by the migration logic: `id`, and the
`attributes` fields `url` (nullable in the API payload), `display_name` and
`is_private`. -/
structure Target where
  id : String
  url : Option String
  display_name : String
  is_private : Bool
deriving DecidableEq

/-- Reason attached to a ledger entry.  The source stores plain strings
(`"public target"`, `"dry-run"`, …), the raw `vars(response)` of a failed
PATCH, or a caught `requests.HTTPError` exception object. -/
inductive Reason where
  | tag : String → Reason
  | rawResponse : Nat → Reason
  | httpException : Reason
deriving DecidableEq

/-- One entry of `self.results[topic]`: the target and the reason recorded
with it. -/
structure LedgerEntry where
  target : Target
  reason : Reason
deriving DecidableEq

/-- Python dict item assignment `d[k] = v`: overwrite in place if the key is
present (keys are unique by construction), append at the end otherwise. -/
def dictInsert (k : String) (v : α) : List (String × α) → List (String × α)
  | [] => [(k, v)]
  | p :: ps => if p.1 == k then (k, v) :: ps else p :: dictInsert k v ps

/-- Python dict read `d.get(k)` / `d[k]`. -/
def dictLookup (k : String) (d : List (String × α)) : Option α :=
  (d.find? (fun p => p.1 == k)).map (fun p => p.2)

/-- Python dict membership `k in d`. -/
def dictContains (k : String) (d : List (String × α)) : Bool :=
  d.any (fun p => p.1 == k)

/-- The facade's `self.results` ledger: three buckets keyed by target id. -/
structure Results where
  migrated : List (String × LedgerEntry)
  failed : List (String × LedgerEntry)
  ignored : List (String × LedgerEntry)
deriving DecidableEq

/-- The ledger as initialised in `SnykMigrationFacade.__init__`. -/
def Results.empty : Results := ⟨[], [], []⟩

/-- Record an outcome in the `migrated` bucket. -/
def Results.addMigrated (r : Results) (k : String) (t : Target) (reason : Reason) : Results :=
  { r with migrated := dictInsert k ⟨t, reason⟩ r.migrated }

/-- Record an outcome in the `failed` bucket. -/
def Results.addFailed (r : Results) (k : String) (t : Target) (reason : Reason) : Results :=
  { r with failed := dictInsert k ⟨t, reason⟩ r.failed }

/-- Record an outcome in the `ignored` bucket. -/
def Results.addIgnored (r : Results) (k : String) (t : Target) (reason : Reason) : Results :=
  { r with ignored := dictInsert k ⟨t, reason⟩ r.ignored }

/-- `SnykMigrationFacade.organize_targets_by_name_and_url`: build the
display-name → url dict over the given targets, in iteration order. -/
def organize_targets_by_name_and_url (targets : List Target) : List (String × Option String) :=
  targets.foldl (fun d t => dictInsert t.display_name t.url d) []

/-- `SnykMigrationFacade.parse_github_cloud_organization_from_target`.
Mirrors the source exactly: `if url and url.startswith("http")`, the
`https://github.com` prefix test, `url.replace("https://github.com/", "")`
(which replaces every occurrence, not only a leading prefix), `split("/")[0]`,
and the display-name fallback. -/
def parse_github_cloud_organization_from_target (target : Target) : String :=
  match target.url with
  | some url =>
    if url != "" && pyStartsWith url "http" then
      if !pyStartsWith url "https://github.com" then ""
      else (pySplit (pyReplace url "https://github.com/" "") '/').headD ""
    else
      if !pyContainsChar target.display_name '/' then ""
      else (pySplit target.display_name '/').headD ""
  | none =>
    if !pyContainsChar target.display_name '/' then ""
    else (pySplit target.display_name '/').headD ""

/-- One page of the REST targets endpoint as consumed by
`get_targets_by_origin`: whether `response.raise_for_status()` passes, the
`data` array, and the `links.next` field (absent, or present with a value). -/
structure Page where
  status_ok : Bool
  data : List Target
  next : Option String
deriving DecidableEq

/-- The `while True` request loop of `get_targets_by_origin`, with the
successive server responses given as a list.  Each iteration raises on a
non-success status, extends the accumulator with the page's `data`, and stops
exactly when `links.next` is absent or empty.  Running out of responses
models the server becoming unreachable (a fatal transport error). -/
def get_targets_by_origin_loop : List Page → List Target → Except String (List Target)
  | [], _ => Except.error "ConnectionError"
  | p :: ps, acc =>
    if p.status_ok = false then Except.error "HTTPError"
    else
      match p.next with
      | none => Except.ok (acc ++ p.data)
      | some n =>
        if n = "" then Except.ok (acc ++ p.data)
        else get_targets_by_origin_loop ps (acc ++ p.data)

/-- `SnykMigrationFacade.get_targets_by_origin`, starting from `targets = []`. -/
def get_targets_by_origin (pages : List Page) : Except String (List Target) :=
  get_targets_by_origin_loop pages []

/-- The inner `for _, t_url in organized_cloud_targets:` loop of
`find_migratable_targets`.  Iterating a Python dict yields its keys, so the
tuple unpacking destructures each display-name string into two characters:
a key whose length is not exactly 2 raises `ValueError`, and otherwise
`t_url` is the second character of the key.  The `continue` in the loop body
only advances this inner loop, so the caller proceeds to the next check
regardless of any match. -/
def checkConflictingUrlLoop (t : Target) : List (String × Option String) → Results → Except String Results
  | [], results => Except.ok results
  | (k, _) :: rest, results =>
    match k.data with
    | [_, c2] =>
      if t.url == some (String.mk [c2]) then
        checkConflictingUrlLoop t rest
          (results.addIgnored t.id t (Reason.tag "conflicting github-cloud-app target"))
      else checkConflictingUrlLoop t rest results
    | _ => Except.error "ValueError"

/-- The body of the `for gh_t in github_targets:` loop of
`find_migratable_targets` for one candidate target: the public-target check,
the display-name conflict check, the (buggy) URL conflict loop, the allowed
github-organizations check, and finally the append to `migratable_targets`.
The state is the pair (migratable list so far, ledger so far). -/
def processTarget (organized : List (String × Option String)) (github_organizations : List String)
    (st : List Target × Results) (gh_t : Target) : Except String (List Target × Results) :=
  if gh_t.is_private = false then
    Except.ok (st.1, st.2.addIgnored gh_t.id gh_t (Reason.tag "public target"))
  else if dictContains gh_t.display_name organized = true then
    Except.ok (st.1, st.2.addIgnored gh_t.id gh_t (Reason.tag "conflicting github-cloud-app target"))
  else
    match checkConflictingUrlLoop gh_t organized st.2 with
    | Except.error e => Except.error e
    | Except.ok results =>
      if github_organizations ≠ [] ∧
          parse_github_cloud_organization_from_target gh_t ∉ github_organizations then
        Except.ok (st.1, results.addIgnored gh_t.id gh_t (Reason.tag "not in specified github organizations"))
      else Except.ok (st.1 ++ [gh_t], results)

/-- The whole `for gh_t in github_targets:` loop. -/
def processTargets (organized : List (String × Option String)) (github_organizations : List String) :
    List Target → List Target × Results → Except String (List Target × Results)
  | [], st => Except.ok st
  | t :: ts, st =>
    match processTarget organized github_organizations st t with
    | Except.error e => Except.error e
    | Except.ok st2 => processTargets organized github_organizations ts st2

/-- `SnykMigrationFacade.find_migratable_targets`.  The network reads are
abstracted by `fetch`, which maps an origin to the (already aggregated)
target list returned by `get_targets_by_origin` for that origin.  Returns
the migratable list together with the updated ledger, or the message of the
raised exception. -/
def find_migratable_targets (org_id : String) (org_integrations : List String)
    (allowed_origins : List String) (github_organizations : List String)
    (fetch : String → List Target) (results : Results) :
    Except String (List Target × Results) :=
  if org_integrations.contains "github-cloud-app" = false then
    Except.error ("github-cloud-app integration not configured to org ID: " ++ org_id)
  else
    let organized := organize_targets_by_name_and_url (fetch "github-cloud-app")
    let github_targets :=
      (org_integrations.filter (fun o => allowed_origins.contains o)).foldl
        (fun acc o => acc ++ fetch o) []
    processTargets organized github_organizations github_targets ([], results)

/-- Outcome of one `migrate_target_to_github_cloud_app` PATCH call as seen by
`migrate_targets`: a response with some status code, a `requests.HTTPError`
(the only exception class the source catches), or a transport failure such as
`requests.ConnectionError` (not an `HTTPError`, hence not caught). -/
inductive PatchOutcome where
  | response : Nat → PatchOutcome
  | httpError : PatchOutcome
  | connectionError : PatchOutcome
deriving DecidableEq

/-- `SnykMigrationFacade.migrate_targets`.  Each target is paired with the
outcome of its PATCH call.  Status 200 records `migrated`, 409 records
`ignored`/"already migrated", any other status records `failed` with the raw
response; a caught `HTTPError` records `failed` and continues.  A transport
failure is NOT caught by `except requests.HTTPError` and propagates, aborting
the loop: the second component then carries the escaped exception. -/
def migrate_targets : Results → List (Target × PatchOutcome) → Results × Option String
  | results, [] => (results, none)
  | results, (t, out) :: rest =>
    match out with
    | PatchOutcome.response s =>
      if s = 200 then migrate_targets (results.addMigrated t.id t (Reason.tag "OK")) rest
      else if s = 409 then
        migrate_targets (results.addIgnored t.id t (Reason.tag "already migrated")) rest
      else migrate_targets (results.addFailed t.id t (Reason.rawResponse s)) rest
    | PatchOutcome.httpError =>
      migrate_targets (results.addFailed t.id t Reason.httpException) rest
    | PatchOutcome.connectionError => (results, some "ConnectionError")

/-- `SnykMigrationFacade.dry_run_targets`.  Records every target as
`migrated`/"dry-run" and logs the summary; the second component is the list
of PATCH requests issued, which is empty because the function performs no
HTTP call at all. -/
def dry_run_targets (results : Results) (targets : List Target) : Results × List String :=
  (targets.foldl (fun r t => r.addMigrated t.id t (Reason.tag "dry-run")) results, [])

/-- A Snyk organization as used by `main`. -/
structure Org where
  id : String
  slug : String
deriving DecidableEq

/-- The deploy-mode orchestration of `main`: the per-organization loop
reassigns the local `org_id` variable and extends one shared
`migratable_targets` list, and `migrate_targets` is then invoked exactly once,
outside the loop, with whatever `org_id` holds at that point.  `orgTargets`
abstracts the migratable targets found for each organization id, and
`cli_org_id` is the value the `org_id` variable holds before the loop (the
CLI argument).  The returned list is the list of `migrate_targets`
invocations with their arguments. -/
def main_deploy_calls (orgs : List Org) (orgTargets : String → List Target)
    (cli_org_id : String) : List (String × List Target) :=
  [orgs.foldl (fun st org => (org.id, st.2 ++ orgTargets org.id)) (cli_org_id, ([] : List Target))]

deriving instance DecidableEq for Except

/-- The spec's wording for the GitHub-host branch of the organization parser:
the first `/`-delimited segment obtained after stripping the literal leading
prefix `https://github.com/` (one occurrence, and only as a prefix).  Declared
solely to compare the spec's description with the source's `str.replace`
behaviour; the source definition is
`parse_github_cloud_organization_from_target`. -/
def specStripLiteralFirstSegment (url : String) : String :=
  let stripped : String :=
    if pyStartsWith url "https://github.com/" then ⟨url.data.drop "https://github.com/".length⟩
    else url
  (pySplit stripped '/').headD ""

/-- No entry of the given `ignored` bucket carries the
"not in specified github organizations" reason. -/
def noOrgMembershipIgnores (d : List (String × LedgerEntry)) : Prop :=
  ∀ p ∈ d, p.2.reason ≠ Reason.tag "not in specified github organizations"

/-- Sample already-migrated (github-cloud-app) target whose display name has
exactly two characters, so the buggy key-unpacking loop does not raise. -/
def cloudTargetAB : Target := ⟨"c1", some "https://github.com/acme/widget", "ab", true⟩

/-- Sample already-migrated target whose display name has three characters,
making the buggy key-unpacking loop raise `ValueError`. -/
def cloudTargetABC : Target := ⟨"c2", some "https://github.com/acme/widget", "abc", true⟩

/-- Sample private candidate target whose URL equals the URL stored in the
already-migrated index under key "ab", while its display name differs. -/
def candidateCD : Target := ⟨"t1", some "https://github.com/acme/widget", "cd", true⟩

/-- Sample target used in batch examples. -/
def sampleT1 : Target := ⟨"t1", some "u1", "n1", true⟩

/-- Sample target used in batch examples. -/
def sampleT2 : Target := ⟨"t2", some "u2", "n2", true⟩

/-- Sample target used in batch examples. -/
def sampleT3 : Target := ⟨"t3", some "u3", "n3", true⟩

/-! ### Dictionary lemmas -/

theorem dictLookup_cons (k : String) (p : String × α) (ps : List (String × α)) :
    dictLookup k (p :: ps) = if p.1 == k then some p.2 else dictLookup k ps := by
  by_cases h : (p.1 == k) = true
  · simp [dictLookup, h]
  · simp [dictLookup, h]

theorem dictLookup_insert_self (k : String) (v : α) (d : List (String × α)) :
    dictLookup k (dictInsert k v d) = some v := by
  induction d with
  | nil => simp [dictInsert, dictLookup]
  | cons p ps ih =>
    by_cases h : (p.1 == k) = true
    · rw [dictInsert, if_pos h, dictLookup_cons]
      simp
    · rw [dictInsert, if_neg h, dictLookup_cons, if_neg h]
      exact ih

theorem dictLookup_insert_ne (k kp : String) (v : α) (d : List (String × α)) (h : kp ≠ k) :
    dictLookup k (dictInsert kp v d) = dictLookup k d := by
  induction d with
  | nil => simp [dictInsert, dictLookup, h]
  | cons p ps ih =>
    by_cases h2 : (p.1 == kp) = true
    · have hp : p.1 = kp := by simpa using h2
      rw [dictInsert, if_pos h2, dictLookup_cons, dictLookup_cons]
      have : (p.1 == k) = false := by simp [hp, h]
      simp [this, hp, h]
    · rw [dictInsert, if_neg h2, dictLookup_cons, dictLookup_cons, ih]

theorem mem_dictInsert {k : String} {v : α} {d : List (String × α)} {p : String × α}
    (hp : p ∈ dictInsert k v d) : p = (k, v) ∨ p ∈ d := by
  induction d with
  | nil => simpa [dictInsert] using hp
  | cons q qs ih =>
    by_cases h : (q.1 == k) = true
    · rw [dictInsert, if_pos h] at hp
      rcases List.mem_cons.mp hp with h1 | h1
      · exact Or.inl h1
      · exact Or.inr (List.mem_cons_of_mem _ h1)
    · rw [dictInsert, if_neg h] at hp
      rcases List.mem_cons.mp hp with h1 | h1
      · exact Or.inr (h1 ▸ List.mem_cons_self _ _)
      · rcases ih h1 with h2 | h2
        · exact Or.inl h2
        · exact Or.inr (List.mem_cons_of_mem _ h2)

theorem foldl_dictInsert_lookup {β : Type} (key : β → String) (val : β → α) :
    ∀ (ts : List β) (d0 : List (String × α)) (k : String),
      dictLookup k (ts.foldl (fun d t => dictInsert (key t) (val t) d) d0) =
        match ts.reverse.find? (fun t => key t == k) with
        | some t => some (val t)
        | none => dictLookup k d0 := by
  intro ts
  induction ts with
  | nil => intro d0 k; simp
  | cons t ts ih =>
    intro d0 k
    rw [List.foldl_cons, ih, List.reverse_cons, List.find?_append]
    cases hf : ts.reverse.find? (fun t => key t == k) with
    | some u => simp
    | none =>
      simp only [Option.none_or, List.find?_singleton]
      by_cases h : (key t == k) = true
      · have hk : key t = k := by simpa using h
        rw [if_pos h, ← hk, dictLookup_insert_self]
      · rw [if_neg h]
        exact dictLookup_insert_ne _ _ _ _ (by simpa using h)

theorem dictContains_of_lookup (k : String) (d : List (String × α)) (v : α)
    (h : dictLookup k d = some v) : dictContains k d = true := by
  unfold dictLookup at h
  cases hf : d.find? (fun p => p.1 == k) with
  | none => rw [hf] at h; simp at h
  | some p =>
    have h1 := List.find?_some hf
    have h2 := List.mem_of_find?_eq_some hf
    simp only [dictContains, List.any_eq_true]
    exact ⟨p, h2, h1⟩

theorem organize_lookup (ts : List Target) (k : String) :
    dictLookup k (organize_targets_by_name_and_url ts) =
      match ts.reverse.find? (fun t => t.display_name == k) with
      | some t => some t.url
      | none => none := by
  rw [organize_targets_by_name_and_url,
    foldl_dictInsert_lookup (fun t : Target => t.display_name) (fun t : Target => t.url) ts [] k]
  cases ts.reverse.find? (fun t => t.display_name == k) <;> rfl

/-! ### Dry-run and deploy orchestration lemmas -/

theorem dry_run_buckets (ts : List Target) :
    ∀ res0 : Results,
      (dry_run_targets res0 ts).1.migrated =
        ts.foldl (fun d t => dictInsert t.id (⟨t, Reason.tag "dry-run"⟩ : LedgerEntry) d) res0.migrated
      ∧ (dry_run_targets res0 ts).1.failed = res0.failed
      ∧ (dry_run_targets res0 ts).1.ignored = res0.ignored := by
  induction ts with
  | nil => intro res0; exact ⟨rfl, rfl, rfl⟩
  | cons t ts ih =>
    intro res0
    have h := ih { res0 with migrated := dictInsert t.id ⟨t, Reason.tag "dry-run"⟩ res0.migrated }
    simpa [dry_run_targets, Results.addMigrated] using h

theorem main_fold_snd (orgTargets : String → List Target) :
    ∀ (orgs : List Org) (c : String) (acc : List Target),
      (orgs.foldl (fun st org => (org.id, st.2 ++ orgTargets org.id)) (c, acc)).2 =
        acc ++ (orgs.map (fun o => orgTargets o.id)).flatten := by
  intro orgs
  induction orgs with
  | nil => intro c acc; simp
  | cons o os ih =>
    intro c acc
    rw [List.foldl_cons, ih]
    simp

/-! ### Pagination lemmas -/

theorem get_targets_loop_ok :
    ∀ (ps : List Page) (acc : List Target) (pl : Page) (rest : List Page),
      (∀ p ∈ ps, p.status_ok = true ∧ ∃ n, p.next = some n ∧ n ≠ "") →
      pl.status_ok = true → (pl.next = none ∨ pl.next = some "") →
      get_targets_by_origin_loop (ps ++ pl :: rest) acc =
        Except.ok (acc ++ ((ps ++ [pl]).map Page.data).flatten) := by
  intro ps
  induction ps with
  | nil =>
    intro acc pl rest _ hok hnext
    rcases hnext with h | h <;>
      simp [get_targets_by_origin_loop, hok, h]
  | cons p ps ih =>
    intro acc pl rest hps hok hnext
    obtain ⟨hpok, n, hn, hne⟩ := hps p (List.mem_cons_self _ _)
    rw [List.cons_append, get_targets_by_origin_loop, if_neg (by simp [hpok]), hn]
    dsimp only
    rw [if_neg hne, ih (acc ++ p.data) pl rest (fun q hq => hps q (List.mem_cons_of_mem _ hq)) hok hnext]
    simp

theorem get_targets_loop_error :
    ∀ (ps : List Page) (acc : List Target) (bad : Page) (rest : List Page),
      (∀ p ∈ ps, p.status_ok = true ∧ ∃ n, p.next = some n ∧ n ≠ "") →
      bad.status_ok = false →
      get_targets_by_origin_loop (ps ++ bad :: rest) acc = Except.error "HTTPError" := by
  intro ps
  induction ps with
  | nil =>
    intro acc bad rest _ hbad
    rw [List.nil_append, get_targets_by_origin_loop, if_pos hbad]
  | cons p ps ih =>
    intro acc bad rest hps hbad
    obtain ⟨hpok, n, hn, hne⟩ := hps p (List.mem_cons_self _ _)
    rw [List.cons_append, get_targets_by_origin_loop, if_neg (by simp [hpok]), hn]
    dsimp only
    rw [if_neg hne, ih (acc ++ p.data) bad rest (fun q hq => hps q (List.mem_cons_of_mem _ hq)) hbad]

/-! ### Eligibility-filter lemmas -/

theorem processTarget_ok_fst (organized : List (String × Option String)) (ghOrgs : List String)
    (st : List Target × Results) (t : Target) (st2 : List Target × Results)
    (h : processTarget organized ghOrgs st t = Except.ok st2) :
    st2.1 = st.1 ∨
      (st2.1 = st.1 ++ [t] ∧ t.is_private = true ∧ dictContains t.display_name organized = false) := by
  unfold processTarget at h
  by_cases h1 : t.is_private = false
  · rw [if_pos h1] at h
    cases h
    exact Or.inl rfl
  · rw [if_neg h1] at h
    by_cases h2 : dictContains t.display_name organized = true
    · rw [if_pos h2] at h
      cases h
      exact Or.inl rfl
    · rw [if_neg h2] at h
      cases hc : checkConflictingUrlLoop t organized st.2 with
      | error e => rw [hc] at h; dsimp only at h; cases h
      | ok res1 =>
        rw [hc] at h
        dsimp only at h
        by_cases h3 : ghOrgs ≠ [] ∧ parse_github_cloud_organization_from_target t ∉ ghOrgs
        · rw [if_pos h3] at h
          cases h
          exact Or.inl rfl
        · rw [if_neg h3] at h
          cases h
          refine Or.inr ⟨rfl, ?_, ?_⟩
          · cases hb : t.is_private
            · exact absurd hb h1
            · rfl
          · cases hb : dictContains t.display_name organized
            · rfl
            · exact absurd hb h2

theorem processTargets_ok_mem (organized : List (String × Option String)) (ghOrgs : List String) :
    ∀ (ts : List Target) (st : List Target × Results) (ms : List Target) (res : Results),
      processTargets organized ghOrgs ts st = Except.ok (ms, res) →
      ∀ t ∈ ms, t ∈ st.1 ∨ (t.is_private = true ∧ dictContains t.display_name organized = false) := by
  intro ts
  induction ts with
  | nil =>
    intro st ms res h t ht
    rw [processTargets] at h
    cases h
    exact Or.inl ht
  | cons t0 ts ih =>
    intro st ms res h t ht
    rw [processTargets] at h
    cases hp : processTarget organized ghOrgs st t0 with
    | error e => rw [hp] at h; dsimp only at h; cases h
    | ok st2 =>
      rw [hp] at h
      dsimp only at h
      rcases ih st2 ms res h t ht with hmem | hmem
      · rcases processTarget_ok_fst organized ghOrgs st t0 st2 hp with hf | hf
        · exact Or.inl (hf ▸ hmem)
        · rw [hf.1] at hmem
          rcases List.mem_append.mp hmem with hm1 | hm1
          · exact Or.inl hm1
          · have ht0 : t = t0 := by simpa using hm1
            exact Or.inr (ht0 ▸ ⟨hf.2.1, hf.2.2⟩)
      · exact Or.inr hmem

theorem find_ok_mem (org_id : String) (ints allowed ghOrgs : List String)
    (fetch : String → List Target) (res0 : Results) (ms : List Target) (res : Results)
    (h : find_migratable_targets org_id ints allowed ghOrgs fetch res0 = Except.ok (ms, res)) :
    ∀ t ∈ ms, t.is_private = true ∧
      dictContains t.display_name (organize_targets_by_name_and_url (fetch "github-cloud-app")) = false := by
  intro t ht
  rw [find_migratable_targets] at h
  by_cases hc : ints.contains "github-cloud-app" = false
  · rw [if_pos hc] at h; cases h
  · rw [if_neg hc] at h
    dsimp only at h
    have hm := processTargets_ok_mem (organize_targets_by_name_and_url (fetch "github-cloud-app"))
      ghOrgs ((ints.filter (fun o => allowed.contains o)).foldl (fun acc o => acc ++ fetch o) [])
      ([], res0) ms res h t ht
    rcases hm with h1 | h1
    · simp at h1
    · exact h1

theorem addIgnored_noOrg (r : Results) (k : String) (t : Target) (reason : Reason)
    (hr : reason ≠ Reason.tag "not in specified github organizations")
    (h : noOrgMembershipIgnores r.ignored) :
    noOrgMembershipIgnores (r.addIgnored k t reason).ignored := by
  intro p hp
  have hp2 : p ∈ dictInsert k (⟨t, reason⟩ : LedgerEntry) r.ignored := hp
  rcases mem_dictInsert hp2 with h1 | h1
  · rw [h1]; exact hr
  · exact h p h1

theorem checkConflictingUrlLoop_noOrg (t : Target) :
    ∀ (organized : List (String × Option String)) (res res2 : Results),
      checkConflictingUrlLoop t organized res = Except.ok res2 →
      noOrgMembershipIgnores res.ignored → noOrgMembershipIgnores res2.ignored := by
  intro organized
  induction organized with
  | nil =>
    intro res res2 h hn
    rw [checkConflictingUrlLoop] at h
    cases h
    exact hn
  | cons kv rest ih =>
    intro res res2 h hn
    obtain ⟨k, v⟩ := kv
    rw [checkConflictingUrlLoop] at h
    rcases hd : k.data with _ | ⟨c1, _ | ⟨c2, _ | ⟨c3, tl⟩⟩⟩
    · rw [hd] at h; dsimp only at h; cases h
    · rw [hd] at h; dsimp only at h; cases h
    · rw [hd] at h
      dsimp only at h
      by_cases hb : (t.url == some (String.mk [c2])) = true
      · rw [if_pos hb] at h
        exact ih _ _ h (addIgnored_noOrg res t.id t _ (by decide) hn)
      · rw [if_neg hb] at h
        exact ih _ _ h hn
    · rw [hd] at h; dsimp only at h; cases h

theorem processTarget_noOrg (organized : List (String × Option String))
    (st : List Target × Results) (t : Target) (st2 : List Target × Results)
    (h : processTarget organized [] st t = Except.ok st2)
    (hn : noOrgMembershipIgnores st.2.ignored) : noOrgMembershipIgnores st2.2.ignored := by
  unfold processTarget at h
  by_cases h1 : t.is_private = false
  · rw [if_pos h1] at h
    cases h
    exact addIgnored_noOrg st.2 t.id t _ (by decide) hn
  · rw [if_neg h1] at h
    by_cases h2 : dictContains t.display_name organized = true
    · rw [if_pos h2] at h
      cases h
      exact addIgnored_noOrg st.2 t.id t _ (by decide) hn
    · rw [if_neg h2] at h
      cases hc : checkConflictingUrlLoop t organized st.2 with
      | error e => rw [hc] at h; dsimp only at h; cases h
      | ok res1 =>
        rw [hc] at h
        dsimp only at h
        have hres1 := checkConflictingUrlLoop_noOrg t organized st.2 res1 hc hn
        by_cases h3 : ([] : List String) ≠ [] ∧ parse_github_cloud_organization_from_target t ∉ ([] : List String)
        · exact absurd rfl h3.1
        · rw [if_neg h3] at h
          cases h
          exact hres1

theorem processTargets_noOrg (organized : List (String × Option String)) :
    ∀ (ts : List Target) (st : List Target × Results) (ms : List Target) (res : Results),
      processTargets organized [] ts st = Except.ok (ms, res) →
      noOrgMembershipIgnores st.2.ignored → noOrgMembershipIgnores res.ignored := by
  intro ts
  induction ts with
  | nil =>
    intro st ms res h hn
    rw [processTargets] at h
    cases h
    exact hn
  | cons t0 ts ih =>
    intro st ms res h hn
    rw [processTargets] at h
    cases hp : processTarget organized [] st t0 with
    | error e => rw [hp] at h; dsimp only at h; cases h
    | ok st2 =>
      rw [hp] at h
      dsimp only at h
      exact ih st2 ms res h (processTarget_noOrg organized st t0 st2 hp hn)

theorem find_noOrg (org_id : String) (ints allowed : List String)
    (fetch : String → List Target) (res0 : Results) (ms : List Target) (res : Results)
    (h : find_migratable_targets org_id ints allowed [] fetch res0 = Except.ok (ms, res))
    (hn : noOrgMembershipIgnores res0.ignored) : noOrgMembershipIgnores res.ignored := by
  rw [find_migratable_targets] at h
  by_cases hc : ints.contains "github-cloud-app" = false
  · rw [if_pos hc] at h; cases h
  · rw [if_neg hc] at h
    dsimp only at h
    exact processTargets_noOrg _ _ ([], res0) ms res h hn

/-! ### Claim theorems -/

/-- C1: the spec requires that a private candidate whose display name is not
an index key but whose URL equals a value stored in the Already-Migrated
Index be ignored as a conflicting target and excluded from the migratable
list, comparing against all index entries.  The source instead iterates the
index's keys (`for _, t_url in organized_cloud_targets`), destructuring each
key string into two characters, and its `continue` only advances the inner
loop.  Evaluated at a concrete input: the candidate's URL equals the stored
index value (under the two-character key "ab"), yet the filter returns the
candidate as migratable with an untouched ledger; and with a three-character
index key the filter raises `ValueError` instead. -/
theorem url_conflict_check_is_ineffective :
    dictLookup "ab" (organize_targets_by_name_and_url [cloudTargetAB]) =
      some (some "https://github.com/acme/widget")
    ∧ candidateCD.url = some "https://github.com/acme/widget"
    ∧ candidateCD.is_private = true
    ∧ candidateCD.display_name ≠ "ab"
    ∧ find_migratable_targets "org1" ["github-cloud-app", "github"] ["github"] []
        (fun o => if o == "github-cloud-app" then [cloudTargetAB]
          else if o == "github" then [candidateCD] else [])
        Results.empty = Except.ok ([candidateCD], Results.empty)
    ∧ find_migratable_targets "org1" ["github-cloud-app", "github"] ["github"] []
        (fun o => if o == "github-cloud-app" then [cloudTargetABC]
          else if o == "github" then [candidateCD] else [])
        Results.empty = Except.error "ValueError" := by
  decide

/-- C2: status handling in deploy mode matches the spec (200 → migrated,
409 → ignored/already-migrated, other status → failed with the raw response,
and processing continues), but a transport failure during the PATCH is not
caught: `migrate_targets` only catches `requests.HTTPError`, of which
`requests.ConnectionError` is not a subclass, so the exception propagates,
the failing target is never recorded as failed, and the remaining targets
are never processed. -/
theorem transport_failure_aborts_migration_batch :
    migrate_targets Results.empty
        [(sampleT1, PatchOutcome.connectionError), (sampleT2, PatchOutcome.response 200)] =
      (Results.empty, some "ConnectionError")
    ∧ migrate_targets Results.empty
        [(sampleT1, PatchOutcome.response 500), (sampleT2, PatchOutcome.response 200),
          (sampleT3, PatchOutcome.response 409)] =
      (⟨[("t2", ⟨sampleT2, Reason.tag "OK"⟩)], [("t1", ⟨sampleT1, Reason.rawResponse 500⟩)],
        [("t3", ⟨sampleT3, Reason.tag "already migrated"⟩)]⟩, none) := by
  decide

/-- C3 counterexample: the claim describes the GitHub branch of the parser as
the first slash-delimited segment obtained after stripping the literal prefix
"https://github.com/".  The source instead performs
`url.replace("https://github.com/", "")`, which removes every occurrence of
the substring; on a URL containing the substring twice the two computations
differ. -/
theorem parse_organization_strip_counterexample :
    parse_github_cloud_organization_from_target
        ⟨"x", some "https://github.com/https://github.com/foo", "n", true⟩ = "foo"
    ∧ specStripLiteralFirstSegment "https://github.com/https://github.com/foo" = "https:"
    ∧ parse_github_cloud_organization_from_target
        ⟨"x", some "https://github.com/https://github.com/foo", "n", true⟩ ≠
      specStripLiteralFirstSegment "https://github.com/https://github.com/foo" := by
  decide

theorem pyStartsWith_http_ne_empty (u : String) (h : pyStartsWith u "http" = true) :
    (u != "") = true := by
  rcases u with ⟨data⟩
  cases data with
  | nil => exact absurd h (by decide)
  | cons c cs => simp [bne_iff_ne, String.ext_iff]

/-- C3 (amended): the parser is a pure total function; when the URL is
present and begins with "http" (and is nonempty, which follows), it returns
the empty string unless the URL starts with "https://github.com", and
otherwise the first "/"-delimited segment obtained after removing every
occurrence of the substring "https://github.com/" (Python `str.replace`
semantics, not literal-prefix stripping); when the URL is absent the
display-name fallback applies; the four concrete examples of the claim all
hold. -/
theorem parse_organization_behaviour :
    (∀ (t : Target) (u : String), t.url = some u → pyStartsWith u "http" = true →
      parse_github_cloud_organization_from_target t =
        if pyStartsWith u "https://github.com" = true then
          (pySplit (pyReplace u "https://github.com/" "") '/').headD ""
        else "")
    ∧ (∀ t : Target, t.url = none →
      parse_github_cloud_organization_from_target t =
        if pyContainsChar t.display_name '/' = true then
          (pySplit t.display_name '/').headD ""
        else "")
    ∧ parse_github_cloud_organization_from_target
        ⟨"1", some "https://github.com/acme/widget", "n", true⟩ = "acme"
    ∧ parse_github_cloud_organization_from_target
        ⟨"2", some "https://gitlab.com/acme/widget", "n", true⟩ = ""
    ∧ parse_github_cloud_organization_from_target ⟨"3", none, "acme/widget", true⟩ = "acme"
    ∧ parse_github_cloud_organization_from_target ⟨"4", none, "widget", true⟩ = "" := by
  refine ⟨?_, ?_, by decide, by decide, by decide, by decide⟩
  · intro t u hu hsw
    obtain ⟨tid, turl, tdn, tpriv⟩ := t
    dsimp only at hu
    subst hu
    have hne := pyStartsWith_http_ne_empty u hsw
    dsimp only [parse_github_cloud_organization_from_target]
    rw [if_pos (show (u != "" && pyStartsWith u "http") = true by rw [hne, hsw]; rfl)]
    by_cases hg : pyStartsWith u "https://github.com" = true
    · simp [hg]
    · have hg2 : pyStartsWith u "https://github.com" = false := by
        revert hg; cases pyStartsWith u "https://github.com" <;> simp
      simp [hg2]
  · intro t h
    obtain ⟨tid, turl, tdn, tpriv⟩ := t
    dsimp only at h
    subst h
    dsimp only [parse_github_cloud_organization_from_target]
    by_cases hc : pyContainsChar tdn '/' = true
    · simp [hc]
    · have hc2 : pyContainsChar tdn '/' = false := by
        revert hc; cases pyContainsChar tdn '/' <;> simp
      simp [hc2]

/-- Witness for `parse_organization_behaviour` at a concrete target. -/
theorem parse_organization_behaviour_witness :
    parse_github_cloud_organization_from_target ⟨"w", some "https://github.com/w1/w2", "n", true⟩ =
      (if pyStartsWith "https://github.com/w1/w2" "https://github.com" = true then
        (pySplit (pyReplace "https://github.com/w1/w2" "https://github.com/" "") '/').headD ""
      else "") :=
  parse_organization_behaviour.1 ⟨"w", some "https://github.com/w1/w2", "n", true⟩
    "https://github.com/w1/w2" rfl (by decide)

/-- C4: in deploy mode the mutation routine is invoked exactly once, with the
organization id of the last organization iterated, over the entire
accumulated target list — including the targets fetched from earlier
organizations. -/
theorem deploy_uses_last_org_id (orgsInit : List Org) (lastOrg : Org)
    (orgTargets : String → List Target) (cli_org_id : String) :
    main_deploy_calls (orgsInit ++ [lastOrg]) orgTargets cli_org_id =
      [(lastOrg.id, ((orgsInit ++ [lastOrg]).map (fun o => orgTargets o.id)).flatten)] := by
  simp [main_deploy_calls, List.foldl_append, main_fold_snd orgTargets]

/-- Witness for `deploy_uses_last_org_id` with two organizations: the single
mutation call carries the second organization's id and both organizations'
targets. -/
theorem deploy_uses_last_org_id_witness :
    main_deploy_calls [⟨"o1", "s1"⟩, ⟨"o2", "s2"⟩]
      (fun i => if i == "o1" then [sampleT1] else [sampleT2]) "cli" =
      [("o2", [sampleT1, sampleT2])] :=
  (deploy_uses_last_org_id [⟨"o1", "s1"⟩] ⟨"o2", "s2"⟩
    (fun i => if i == "o1" then [sampleT1] else [sampleT2]) "cli").trans (by decide)

/-- C5: the pagination loop concatenates the pages' `data` arrays in
server-returned page order with nothing duplicated or dropped, terminates
exactly at the first page whose `links.next` is absent or empty (any further
prepared responses are never requested), and a non-success status on any page
raises with no retry. -/
theorem pagination_aggregates_in_order :
    (∀ (ps : List Page) (pl : Page) (rest : List Page),
        (∀ p ∈ ps, p.status_ok = true ∧ ∃ n, p.next = some n ∧ n ≠ "") →
        pl.status_ok = true → (pl.next = none ∨ pl.next = some "") →
        get_targets_by_origin (ps ++ pl :: rest) =
          Except.ok (((ps ++ [pl]).map Page.data).flatten))
    ∧ (∀ (ps : List Page) (bad : Page) (rest : List Page),
        (∀ p ∈ ps, p.status_ok = true ∧ ∃ n, p.next = some n ∧ n ≠ "") →
        bad.status_ok = false →
        get_targets_by_origin (ps ++ bad :: rest) = Except.error "HTTPError") := by
  constructor
  · intro ps pl rest h1 h2 h3
    simpa [get_targets_by_origin] using get_targets_loop_ok ps [] pl rest h1 h2 h3
  · intro ps bad rest h1 h2
    simpa [get_targets_by_origin] using get_targets_loop_error ps [] bad rest h1 h2

/-- Witness for `pagination_aggregates_in_order` over a three-page response
sequence followed by a response that is never requested. -/
theorem pagination_aggregates_in_order_witness :
    get_targets_by_origin
      [⟨true, [sampleT1], some "page2"⟩, ⟨true, [sampleT2], some "page3"⟩,
        ⟨true, [sampleT3], none⟩, ⟨true, [], some "page5"⟩] =
      Except.ok [sampleT1, sampleT2, sampleT3] := by
  have h := pagination_aggregates_in_order.1
    [⟨true, [sampleT1], some "page2"⟩, ⟨true, [sampleT2], some "page3"⟩]
    ⟨true, [sampleT3], none⟩ [⟨true, [], some "page5"⟩]
    (by
      intro p hp
      rcases List.mem_cons.mp hp with rfl | hp2
      · exact ⟨rfl, "page2", rfl, by decide⟩
      · rcases List.mem_cons.mp hp2 with rfl | hp3
        · exact ⟨rfl, "page3", rfl, by decide⟩
        · simp at hp3)
    rfl (Or.inl rfl)
  exact h.trans (by decide)

/-- C6: a non-private candidate is classified as ignored with the
public-target reason regardless of every other attribute (the check runs
first), and the migratable list returned by the filter only ever contains
private targets. -/
theorem public_targets_are_ignored :
    (∀ (organized : List (String × Option String)) (ghOrgs : List String)
        (st : List Target × Results) (t : Target), t.is_private = false →
        processTarget organized ghOrgs st t =
          Except.ok (st.1, st.2.addIgnored t.id t (Reason.tag "public target")))
    ∧ (∀ (org_id : String) (ints allowed ghOrgs : List String) (fetch : String → List Target)
        (res0 : Results) (ms : List Target) (res : Results),
        find_migratable_targets org_id ints allowed ghOrgs fetch res0 = Except.ok (ms, res) →
        ∀ t ∈ ms, t.is_private = true) := by
  constructor
  · intro organized ghOrgs st t h
    unfold processTarget
    rw [if_pos h]
  · intro org_id ints allowed ghOrgs fetch res0 ms res h t ht
    exact (find_ok_mem org_id ints allowed ghOrgs fetch res0 ms res h t ht).1

/-- Witness for `public_targets_are_ignored` at a concrete public target. -/
theorem public_targets_are_ignored_witness :
    processTarget [] [] ([], Results.empty) ⟨"p1", some "u", "n", false⟩ =
      Except.ok ([], Results.empty.addIgnored "p1" ⟨"p1", some "u", "n", false⟩
        (Reason.tag "public target")) :=
  public_targets_are_ignored.1 [] [] ([], Results.empty) ⟨"p1", some "u", "n", false⟩ rfl

/-- C7: a private candidate whose display name is a key of the
Already-Migrated Index is classified as ignored with the conflicting-target
reason — the URL stored under the key plays no role — and the migratable
list returned by the filter only contains targets whose display name is not
an index key. -/
theorem conflicting_display_name_is_ignored :
    (∀ (organized : List (String × Option String)) (ghOrgs : List String)
        (st : List Target × Results) (t : Target), t.is_private = true →
        dictContains t.display_name organized = true →
        processTarget organized ghOrgs st t =
          Except.ok (st.1, st.2.addIgnored t.id t (Reason.tag "conflicting github-cloud-app target")))
    ∧ (∀ (org_id : String) (ints allowed ghOrgs : List String) (fetch : String → List Target)
        (res0 : Results) (ms : List Target) (res : Results),
        find_migratable_targets org_id ints allowed ghOrgs fetch res0 = Except.ok (ms, res) →
        ∀ t ∈ ms,
          dictContains t.display_name
            (organize_targets_by_name_and_url (fetch "github-cloud-app")) = false) := by
  constructor
  · intro organized ghOrgs st t h1 h2
    unfold processTarget
    rw [if_neg (by simp [h1]), if_pos h2]
  · intro org_id ints allowed ghOrgs fetch res0 ms res h t ht
    exact (find_ok_mem org_id ints allowed ghOrgs fetch res0 ms res h t ht).2

/-- Witness for `conflicting_display_name_is_ignored`: the display name
matches an index key while the URLs differ. -/
theorem conflicting_display_name_is_ignored_witness :
    processTarget [("n", some "stored-url")] [] ([], Results.empty)
        ⟨"t9", some "different-url", "n", true⟩ =
      Except.ok ([], Results.empty.addIgnored "t9" ⟨"t9", some "different-url", "n", true⟩
        (Reason.tag "conflicting github-cloud-app target")) :=
  conflicting_display_name_is_ignored.1 [("n", some "stored-url")] [] ([], Results.empty)
    ⟨"t9", some "different-url", "n", true⟩ rfl (by decide)

/-- C8: with an empty allowed-organizations list no target is ever ignored
for organization membership; with a non-empty list, a candidate that passed
the earlier checks is ignored with the not-in-allowed-organization reason
exactly when its parsed GitHub organization is not a member, and is appended
to the migratable list when it is a member. -/
theorem allowed_github_orgs_filter :
    (∀ (org_id : String) (ints allowed : List String) (fetch : String → List Target)
        (res0 : Results) (ms : List Target) (res : Results),
        find_migratable_targets org_id ints allowed [] fetch res0 = Except.ok (ms, res) →
        noOrgMembershipIgnores res0.ignored → noOrgMembershipIgnores res.ignored)
    ∧ (∀ (organized : List (String × Option String)) (ghOrgs : List String)
        (st : List Target × Results) (t : Target) (res1 : Results),
        ghOrgs ≠ [] → parse_github_cloud_organization_from_target t ∉ ghOrgs →
        t.is_private = true → dictContains t.display_name organized = false →
        checkConflictingUrlLoop t organized st.2 = Except.ok res1 →
        processTarget organized ghOrgs st t =
          Except.ok (st.1, res1.addIgnored t.id t (Reason.tag "not in specified github organizations")))
    ∧ (∀ (organized : List (String × Option String)) (ghOrgs : List String)
        (st : List Target × Results) (t : Target) (res1 : Results),
        parse_github_cloud_organization_from_target t ∈ ghOrgs →
        t.is_private = true → dictContains t.display_name organized = false →
        checkConflictingUrlLoop t organized st.2 = Except.ok res1 →
        processTarget organized ghOrgs st t = Except.ok (st.1 ++ [t], res1)) := by
  refine ⟨?_, ?_, ?_⟩
  · intro org_id ints allowed fetch res0 ms res h hn
    exact find_noOrg org_id ints allowed fetch res0 ms res h hn
  · intro organized ghOrgs st t res1 h1 h2 h3 h4 h5
    unfold processTarget
    rw [if_neg (by simp [h3]), if_neg (by simp [h4]), h5]
    dsimp only
    rw [if_pos ⟨h1, h2⟩]
  · intro organized ghOrgs st t res1 h1 h2 h3 h4
    unfold processTarget
    rw [if_neg (by simp [h2]), if_neg (by simp [h3]), h4]
    dsimp only
    rw [if_neg (fun hcon => hcon.2 h1)]

/-- Witness for `allowed_github_orgs_filter`: a target parsed to the
organization "other" is ignored when only "acme" is allowed. -/
theorem allowed_github_orgs_filter_witness :
    processTarget [] ["acme"] ([], Results.empty)
        ⟨"t8", some "https://github.com/other/r", "other/r", true⟩ =
      Except.ok ([], Results.empty.addIgnored "t8"
        ⟨"t8", some "https://github.com/other/r", "other/r", true⟩
        (Reason.tag "not in specified github organizations")) :=
  allowed_github_orgs_filter.2.1 [] ["acme"] ([], Results.empty)
    ⟨"t8", some "https://github.com/other/r", "other/r", true⟩ Results.empty
    (by decide) (by decide) rfl rfl rfl

/-- C9: dry-run records every given target in the migrated bucket with the
"dry-run" reason, issues no PATCH request (the request trace is empty), and
leaves the failed and ignored buckets untouched. -/
theorem dry_run_records_without_patch :
    ∀ (res0 : Results) (targets : List Target),
      (dry_run_targets res0 targets).2 = []
      ∧ (dry_run_targets res0 targets).1.failed = res0.failed
      ∧ (dry_run_targets res0 targets).1.ignored = res0.ignored
      ∧ ∀ t ∈ targets, ∃ u, u ∈ targets ∧ u.id = t.id ∧
          dictLookup t.id (dry_run_targets res0 targets).1.migrated =
            some ⟨u, Reason.tag "dry-run"⟩ := by
  intro res0 targets
  obtain ⟨hm, hf, hi⟩ := dry_run_buckets targets res0
  refine ⟨rfl, hf, hi, ?_⟩
  intro t ht
  rw [hm, foldl_dictInsert_lookup (fun u : Target => u.id)
    (fun u : Target => (⟨u, Reason.tag "dry-run"⟩ : LedgerEntry)) targets res0.migrated t.id]
  cases hfind : targets.reverse.find? (fun u => u.id == t.id) with
  | none =>
    rw [List.find?_eq_none] at hfind
    exact absurd (by simp : (t.id == t.id) = true) (hfind t (List.mem_reverse.mpr ht))
  | some u =>
    exact ⟨u, List.mem_reverse.mp (List.mem_of_find?_eq_some hfind),
      by simpa using List.find?_some hfind, rfl⟩

/-- Witness for `dry_run_records_without_patch` at a single concrete target. -/
theorem dry_run_records_without_patch_witness :
    dictLookup "t1" (dry_run_targets Results.empty [sampleT1]).1.migrated =
      some ⟨sampleT1, Reason.tag "dry-run"⟩ := by
  obtain ⟨-, -, -, h4⟩ := dry_run_records_without_patch Results.empty [sampleT1]
  obtain ⟨u, hu, hid, hl⟩ := h4 sampleT1 (by simp)
  have hu2 : u = sampleT1 := by simpa using hu
  rw [hu2] at hl
  exact hl

/-- C10: the display-name → url index is a pure mapping: the empty target
list yields the empty mapping, looking up any key returns the URL of the
last target in list order carrying that display name (and nothing for keys
that never occur), and every display name occurring in the input is present
as a key. -/
theorem organize_targets_mapping :
    organize_targets_by_name_and_url [] = []
    ∧ (∀ (ts : List Target) (k : String),
        dictLookup k (organize_targets_by_name_and_url ts) =
          match ts.reverse.find? (fun t => t.display_name == k) with
          | some t => some t.url
          | none => none)
    ∧ (∀ (ts : List Target), ∀ t ∈ ts,
        dictContains t.display_name (organize_targets_by_name_and_url ts) = true) := by
  refine ⟨rfl, organize_lookup, ?_⟩
  intro ts t ht
  have h := organize_lookup ts t.display_name
  cases hfind : ts.reverse.find? (fun u => u.display_name == t.display_name) with
  | none =>
    rw [List.find?_eq_none] at hfind
    exact absurd (by simp : (t.display_name == t.display_name) = true)
      (hfind t (List.mem_reverse.mpr ht))
  | some u =>
    rw [hfind] at h
    exact dictContains_of_lookup _ _ _ h

/-- Witness for `organize_targets_mapping`: two targets share a display name
and the stored URL is the later one's. -/
theorem organize_targets_mapping_witness :
    dictLookup "n" (organize_targets_by_name_and_url
      [⟨"a", some "u1", "n", true⟩, ⟨"b", some "u2", "n", true⟩]) = some (some "u2") := by
  rw [organize_targets_mapping.2.1 [⟨"a", some "u1", "n", true⟩, ⟨"b", some "u2", "n", true⟩] "n"]
  decide
